import Mathlib

/-!
# Verification of the GitLab commit-report pipeline

A shallow embedding of `gitlab_commits.py` (the fetch-and-aggregate
pipeline behind `get_commits_data`).  Python dictionaries are modelled as
association lists of `PyVal` values, naive `datetime` values as a calendar
day index plus microseconds since midnight, and every remote API call as
an `Except String` outcome supplied by an environment record: the
environment decides whether each call raises, and the Lean definitions
replay exactly the control flow of the source on those outcomes.
-/

/-- A Python scalar value, as stored in the dictionaries the script builds. -/
inductive PyVal where
  | str : String → PyVal
  | int : Int → PyVal
  | bool : Bool → PyVal
  | none : PyVal
deriving DecidableEq

/-- A Python dictionary with scalar values: an association list, first
occurrence of a key wins on lookup. -/
abbrev PyDict : Type := List (String × PyVal)

/-- `d.get(k, default)` on a Python dictionary. -/
def dictGetD (d : PyDict) (k : String) (dflt : PyVal) : PyVal :=
  match List.lookup k d with
  | some v => v
  | Option.none => dflt

/-- A naive Python `datetime`: a calendar day index (days since some fixed
epoch) and the number of microseconds elapsed since that day's midnight.
`replace(hour=0, minute=0, second=0, microsecond=0)` zeroes the second
component, and subtracting `timedelta(days=k)` shifts the first by `k`. -/
structure PyDateTime where
  day : Int
  usec : Nat
deriving DecidableEq

/-- The `<=` order on naive datetimes: lexicographic on (day, time). -/
def dtLe (a b : PyDateTime) : Bool :=
  a.day < b.day || (a.day == b.day && a.usec ≤ b.usec)

/-- `dt.replace(hour=0, minute=0, second=0, microsecond=0)`. -/
def replaceMidnight (d : PyDateTime) : PyDateTime :=
  { day := d.day, usec := 0 }

/-- `dt - datetime.timedelta(days=k)`. -/
def subDays (d : PyDateTime) (k : Int) : PyDateTime :=
  { day := d.day - k, usec := d.usec }

/-- Lines 207-208 of `gitlab_commits.py`: the `(start_date, end_date)`
window computed by `get_today_commits` from the current time and the
`days` argument. -/
def commitWindow (now : PyDateTime) (days : Int) : PyDateTime × PyDateTime :=
  (subDays (replaceMidnight now) (days - 1), now)

/-- Modelled from the spec: the phrase "today's midnight" used by the
window claims. -/
def midnightOf (now : PyDateTime) : PyDateTime :=
  { day := now.day, usec := 0 }

/-- Lines 253-266 of `gitlab_commits.py`: the projection applied by
`filter_diff_data` to one upstream diff entry — the two path keys with
their `.get(..., '')` defaults, then `new_file` appended exactly when the
source entry contains that key. -/
def filterDiffItem (diff_item : PyDict) : PyDict :=
  match List.lookup "new_file" diff_item with
  | some v =>
    [("new_path", dictGetD diff_item "new_path" (PyVal.str "")),
     ("old_path", dictGetD diff_item "old_path" (PyVal.str "")),
     ("new_file", v)]
  | Option.none =>
    [("new_path", dictGetD diff_item "new_path" (PyVal.str "")),
     ("old_path", dictGetD diff_item "old_path" (PyVal.str ""))]

/-- `filter_diff_data`: keep only `new_path`, `old_path` and (when the
source entry has it) `new_file` in every diff entry. -/
def filter_diff_data (diff : List PyDict) : List PyDict :=
  diff.map filterDiffItem

/-- The only keys a filtered diff entry may carry. -/
def allowedDiffKeys : List String := ["new_path", "old_path", "new_file"]

/-- A timezone-aware or naive ISO-8601 timestamp as `datetime.fromisoformat`
produces it: calendar fields plus an optional UTC offset in minutes
(`None` for a naive value). -/
structure IsoDateTime where
  year : Nat
  month : Nat
  day : Nat
  hour : Nat
  minute : Nat
  second : Nat
  offset : Option Int
deriving DecidableEq

/-- Value of one decimal digit character. -/
def digitVal (c : Char) : Option Nat :=
  if c.isDigit then some (c.toNat - 48) else Option.none

/-- Two decimal digit characters as a number. -/
def twoDigits (a b : Char) : Option Nat :=
  match digitVal a, digitVal b with
  | some x, some y => some (10 * x + y)
  | _, _ => Option.none

/-- Four decimal digit characters as a number. -/
def fourDigits (a b c d : Char) : Option Nat :=
  match twoDigits a b, twoDigits c d with
  | some x, some y => some (100 * x + y)
  | _, _ => Option.none

/-- Gregorian leap-year rule, as `datetime` validates dates. -/
def isLeapYear (y : Nat) : Bool :=
  (y % 4 == 0 && y % 100 != 0) || y % 400 == 0

/-- Days in a month, as `datetime` validates dates. -/
def daysInMonth (y m : Nat) : Nat :=
  if m == 2 then (if isLeapYear y then 29 else 28)
  else if m == 4 || m == 6 || m == 9 || m == 11 then 30
  else 31

/-- Build a validated timestamp from its parsed digit groups, applying the
range checks `datetime(...)` itself performs. -/
def mkIsoDateTime (y mo d h mi s : Nat) (off : Option Int) : Option IsoDateTime :=
  if 1 ≤ y && y ≤ 9999 && 1 ≤ mo && mo ≤ 12 && 1 ≤ d && d ≤ daysInMonth y mo
      && h ≤ 23 && mi ≤ 59 && s ≤ 59 then
    some { year := y, month := mo, day := d, hour := h, minute := mi,
           second := s, offset := off }
  else Option.none

/-- Parse a `+HH:MM` / `-HH:MM` trailing offset into signed minutes,
with the bounds `datetime.timezone` accepts. -/
def parseOffsetDigits (sg o1 o2 o3 o4 : Char) : Option Int :=
  match twoDigits o1 o2, twoDigits o3 o4 with
  | some hh, some mm =>
    if hh ≤ 23 && mm ≤ 59 then
      if sg == '+' then some ((60 * hh + mm : Nat) : Int)
      else if sg == '-' then some (-((60 * hh + mm : Nat) : Int))
      else Option.none
    else Option.none
  | _, _ => Option.none

/-- `datetime.datetime.fromisoformat` on the `YYYY-MM-DDTHH:MM:SS` /
`YYYY-MM-DDTHH:MM:SS±HH:MM` formats the script feeds it (the canonical
fixed-width serializations; other accepted variants such as fractional
seconds are outside the inputs this development evaluates). -/
def isoParseChars : List Char → Option IsoDateTime
  | [y1, y2, y3, y4, '-', mo1, mo2, '-', d1, d2, 'T',
     h1, h2, ':', mi1, mi2, ':', s1, s2] =>
    (match fourDigits y1 y2 y3 y4, twoDigits mo1 mo2, twoDigits d1 d2,
           twoDigits h1 h2, twoDigits mi1 mi2, twoDigits s1 s2 with
     | some y, some mo, some d, some h, some mi, some s =>
       mkIsoDateTime y mo d h mi s Option.none
     | _, _, _, _, _, _ => Option.none)
  | [y1, y2, y3, y4, '-', mo1, mo2, '-', d1, d2, 'T',
     h1, h2, ':', mi1, mi2, ':', s1, s2, sg, o1, o2, ':', o3, o4] =>
    (match parseOffsetDigits sg o1 o2 o3 o4 with
     | some off =>
       (match fourDigits y1 y2 y3 y4, twoDigits mo1 mo2, twoDigits d1 d2,
              twoDigits h1 h2, twoDigits mi1 mi2, twoDigits s1 s2 with
        | some y, some mo, some d, some h, some mi, some s =>
          mkIsoDateTime y mo d h mi s (some off)
        | _, _, _, _, _, _ => Option.none)
     | Option.none => Option.none)
  | _ => Option.none

/-- Zero-padded two-digit decimal rendering (`%02d`), exact on the field
ranges `datetime` admits. -/
def pad2 (n : Nat) : List Char :=
  [Nat.digitChar (n / 10 % 10), Nat.digitChar (n % 10)]

/-- Zero-padded four-digit decimal rendering (`%04d`), exact on the field
ranges `datetime` admits. -/
def pad4 (n : Nat) : List Char :=
  [Nat.digitChar (n / 1000 % 10), Nat.digitChar (n / 100 % 10),
   Nat.digitChar (n / 10 % 10), Nat.digitChar (n % 10)]

/-- How `datetime.isoformat` renders a UTC offset of `m` minutes. -/
def offsetSuffixChars (m : Int) : List Char :=
  (if m < 0 then '-' else '+') ::
    (pad2 (m.natAbs / 60) ++ ':' :: pad2 (m.natAbs % 60))

/-- `datetime.isoformat()`: the canonical serialization, with a trailing
offset exactly when the value is timezone-aware. -/
def isoFormatChars (dt : IsoDateTime) : List Char :=
  pad4 dt.year ++ '-' :: pad2 dt.month ++ '-' :: pad2 dt.day ++ 'T' ::
    pad2 dt.hour ++ ':' :: pad2 dt.minute ++ ':' :: pad2 dt.second ++
    (match dt.offset with
     | some m => offsetSuffixChars m
     | Option.none => [])

/-- `s.replace('Z', '+00:00')`: every `Z` is substituted. -/
def replaceZChars : List Char → List Char
  | [] => []
  | c :: rest =>
    if c = 'Z' then '+' :: '0' :: '0' :: ':' :: '0' :: '0' :: replaceZChars rest
    else c :: replaceZChars rest

/-- Lines 170-180 of `gitlab_commits.py`: the `created_at` normalization
applied to a string value inside `get_project_commits`.  The `Z`
replacement is assigned back to `created_at` before the parse is
attempted, so a parse failure leaves the replaced string in the record. -/
def normalizeCreatedAt (s : String) : String :=
  match isoParseChars (replaceZChars s.data) with
  | some dt => String.mk (isoFormatChars dt)
  | Option.none => String.mk (replaceZChars s.data)

/-- Does a six-character list have the `±HH:MM` shape of an explicit
numeric UTC offset? -/
def offsetTail : List Char → Bool
  | [sg, a, b, c, d, e] =>
    (sg == '+' || sg == '-') && a.isDigit && b.isDigit
      && (c == ':') && d.isDigit && e.isDigit
  | _ => false

/-- A string ends with an explicit numeric UTC offset. -/
def endsWithOffset (s : String) : Bool :=
  offsetTail (s.data.drop (s.data.length - 6))

/-- A commit summary as returned by a listing page: its identifier and,
when the object exposes the attribute (`hasattr(commit, 'created_at')`),
its timestamp string. -/
structure RawCommit where
  id : String
  created_at : Option String
deriving DecidableEq

/-- Lines 141-145 of `gitlab_commits.py`: the client-side filter applied
to one fallback page.  `parse` abstracts `datetime.fromisoformat` (a
`none` result models the exception it raises on a malformed string, which
aborts the scan but keeps the commits already appended).  Returns the
kept commits of the batch and whether the scan may continue. -/
def keepInWindow (parse : String → Option PyDateTime)
    (start_date end_date : PyDateTime) : List RawCommit → List RawCommit × Bool
  | [] => ([], true)
  | c :: rest =>
    match c.created_at with
    | Option.none => keepInWindow parse start_date end_date rest
    | some s =>
      match parse s with
      | Option.none => ([], false)
      | some t =>
        if dtLe start_date t && dtLe t end_date then
          ((c :: (keepInWindow parse start_date end_date rest).1),
           (keepInWindow parse start_date end_date rest).2)
        else keepInWindow parse start_date end_date rest

/-- Lines 135-148 of `gitlab_commits.py`: the manual-pagination loop.
`pages` gives the batch the API returns for each page number; the fuel
counts the remaining pages of the 10-page cap. -/
def fallbackLoop (parse : String → Option PyDateTime)
    (pages : Nat → List RawCommit) (start_date end_date : PyDateTime) :
    Nat → Nat → List RawCommit → List RawCommit
  | 0, _, acc => acc
  | fuel + 1, page, acc =>
    let batch := pages page
    if batch.isEmpty then acc
    else
      let kept := keepInWindow parse start_date end_date batch
      if kept.2 then
        fallbackLoop parse pages start_date end_date fuel (page + 1) (acc ++ kept.1)
      else acc ++ kept.1

/-- The manual-pagination fallback path of `get_project_commits`: used
when both server-side filtered listings fail; scans pages 1..10 and keeps
only commits whose parsed `created_at` lies in the window. -/
def get_project_commits_fallback (parse : String → Option PyDateTime)
    (pages : Nat → List RawCommit) (start_date end_date : PyDateTime) :
    List RawCommit :=
  fallbackLoop parse pages start_date end_date 10 1 []

/-- A user object as the API returns it; `email` and `state` may be
missing attributes (`getattr` defaults apply). -/
structure RawUser where
  id : Int
  username : String
  name : String
  email : Option String
  state : Option String
deriving DecidableEq

/-- The projected user shape built by `get_user_batch` and
`_get_all_users_sequential` (lines 275-284 and 380-389). -/
structure UserRec where
  id : Int
  username : String
  name : String
  email : PyVal
  state : String
deriving DecidableEq

/-- Lines 276-283 of `gitlab_commits.py`: project one user object. -/
def projectUser (u : RawUser) : UserRec :=
  { id := u.id, username := u.username, name := u.name,
    email := match u.email with
             | some e => PyVal.str e
             | Option.none => PyVal.none,
    state := u.state.getD "unknown" }

/-- Outcomes of the user-listing API calls `get_all_users` makes. -/
structure UserEnv where
  firstPage : Except String (Option Nat)
  pageResult : Nat → Except String (List RawUser)
  listAllSeq : Except String (List RawUser)
  seqPage : Nat → Except String (List RawUser)

/-- Line 301 and 304 of `gitlab_commits.py`: pages needed to cover the
total reported by the first page (ceiling division by 100), or 20 when
the API exposes no total. -/
def userTotalPages (total : Option Nat) : Nat :=
  match total with
  | some t => (t + 99) / 100
  | Option.none => 20

/-- Lines 319-320 of `gitlab_commits.py`: the page numbers for which a
fetch task is submitted to the pool (`range(1, total_pages + 1)`). -/
def userPageTasks (total : Option Nat) : List Nat :=
  List.range' 1 (userTotalPages total)

/-- `get_user_batch` (lines 268-288): one page fetch, catching its own
errors and contributing an empty batch on failure. -/
def get_user_batch (e : UserEnv) (page : Nat) : List UserRec :=
  match e.pageResult page with
  | Except.ok batch => batch.map projectUser
  | Except.error _ => []

/-- Lines 364-378 of `gitlab_commits.py`: sequential page-by-page user
retrieval, stopping on an empty page or an error, capped at 50 pages. -/
def userSeqLoop (e : UserEnv) : Nat → Nat → List RawUser → List RawUser
  | 0, _, acc => acc
  | fuel + 1, page, acc =>
    match e.seqPage page with
    | Except.error _ => acc
    | Except.ok [] => acc
    | Except.ok batch => userSeqLoop e fuel (page + 1) (acc ++ batch)

/-- `_get_all_users_sequential` (lines 352-392). -/
def get_all_users_sequential (e : UserEnv) : List UserRec :=
  match e.listAllSeq with
  | Except.ok us => us.map projectUser
  | Except.error _ => (userSeqLoop e 50 1 []).map projectUser

/-- `get_all_users` (lines 290-350): estimate the page count from the
first page, fan one `get_user_batch` task out per page, and fall back to
the sequential method when estimation raised or the parallel pass
collected nothing. -/
def get_all_users (e : UserEnv) : List UserRec :=
  match e.firstPage with
  | Except.error _ => get_all_users_sequential e
  | Except.ok total =>
    let all_users := (userPageTasks total).flatMap (get_user_batch e)
    if all_users.isEmpty then get_all_users_sequential e else all_users

/-- A project object as the API returns it; `visibility` may be a missing
attribute (`getattr` default applies). -/
structure RawProject where
  id : Int
  name : String
  path_with_namespace : String
  visibility : Option String
  web_url : String
deriving DecidableEq

/-- The projected project shape built at lines 84-93. -/
structure Project where
  id : Int
  name : String
  path_with_namespace : String
  visibility : String
  web_url : String
deriving DecidableEq

/-- Lines 85-91 of `gitlab_commits.py`: project one project object. -/
def projectProj (p : RawProject) : Project :=
  { id := p.id, name := p.name, path_with_namespace := p.path_with_namespace,
    visibility := p.visibility.getD "unknown", web_url := p.web_url }

/-- Outcomes of the project-listing API calls `get_all_projects` makes. -/
structure ProjEnv where
  listVisAll : Except String (List RawProject)
  listAll : Except String (List RawProject)
  pageResult : Nat → Except String (List RawProject)

/-- Lines 72-82 of `gitlab_commits.py`: manual project pagination, capped
at 100 pages; a page fetch here is not guarded, so its exception
propagates to the outer handler. -/
def projPagesLoop (e : ProjEnv) : Nat → Nat → List RawProject →
    Except String (List RawProject)
  | 0, _, acc => Except.ok acc
  | fuel + 1, page, acc =>
    match e.pageResult page with
    | Except.error err => Except.error err
    | Except.ok [] => Except.ok acc
    | Except.ok batch => projPagesLoop e fuel (page + 1) (acc ++ batch)

/-- `get_all_projects` (lines 50-101): bulk list with the visibility
filter, then without it, then manual pagination when both returned empty;
any exception escaping those attempts is caught at line 99 and yields the
(still empty) accumulated list. -/
def get_all_projects (e : ProjEnv) : List Project :=
  match (match e.listVisAll with
         | Except.ok ps => Except.ok ps
         | Except.error _ => e.listAll) with
  | Except.error _ => []
  | Except.ok ps =>
    if ps.isEmpty then
      match projPagesLoop e 100 1 [] with
      | Except.error _ => []
      | Except.ok acc => acc.map projectProj
    else ps.map projectProj

/-- The commit dictionary built at lines 182-190 of `gitlab_commits.py`. -/
structure CommitRecord where
  title : PyVal
  message : PyVal
  author_name : PyVal
  author_email : PyVal
  created_at : PyVal
  project_path : String
  diff : List PyDict
deriving DecidableEq

/-- The environment of one `get_commits_data` run: the outcome of every
remote interaction.  `authResult` is the outcome of `get_gitlab_client`
(which re-raises on any authentication failure, line 48); the enumeration
fields feed `get_all_projects` / `get_all_users`, which catch internally
and never raise; `fetch` is the outcome of one `get_project_commits`
worker task as observed through `future.result()`. -/
structure Env where
  authResult : Except String Unit
  projEnv : ProjEnv
  userEnv : UserEnv
  fetch : Project → PyDateTime → PyDateTime → Except String (List CommitRecord)
  nowFetch : PyDateTime
  nowAssemblyIso : String

/-- Lines 237-245 of `gitlab_commits.py`: how one completed task's
outcome extends the aggregate — `all_commits.extend(...)` on success,
nothing (the exception is caught and logged) on failure. -/
def extendAggregate (acc : List CommitRecord)
    (r : Except String (List CommitRecord)) : List CommitRecord :=
  match r with
  | Except.ok l => acc ++ l
  | Except.error _ => acc

/-- `get_today_commits` (lines 204-251): compute the window, run one
fetch per project, and extend the aggregate with each task's result,
catching a failed task (line 244) so it contributes nothing. -/
def get_today_commits (fetch : Project → PyDateTime → PyDateTime →
      Except String (List CommitRecord))
    (now : PyDateTime) (projects : List Project) (days : Int) :
    List CommitRecord :=
  let w := commitWindow now days
  (projects.map (fun p => fetch p w.1 w.2)).foldl extendAggregate []

/-- The report dictionary returned by `get_commits_data`. -/
structure Report where
  metadata : PyDict
  commits : List CommitRecord
deriving DecidableEq

/-- Line 510 of `gitlab_commits.py`: the message stored under
`metadata.error` when the top-level handler fires. -/
def unexpectedErrorMsg (e : String) : String :=
  "ERROR: An unexpected error occurred: " ++ e

/-- The body of the `try` block of `get_commits_data` (lines 465-508):
client creation is the only step whose exception reaches the top-level
handler (every later step catches internally), so the body fails exactly
when authentication does. -/
def runPipeline (env : Env) (url : String) (days : Int) :
    Except String Report :=
  match env.authResult with
  | Except.error e => Except.error e
  | Except.ok _ =>
    let projects := get_all_projects env.projEnv
    let users := get_all_users env.userEnv
    let commits := get_today_commits env.fetch env.nowFetch projects days
    Except.ok
      { metadata :=
          [("date", PyVal.str env.nowAssemblyIso),
           ("gitlab_url", PyVal.str url),
           ("days_included", PyVal.int days),
           ("projects_count", PyVal.int projects.length),
           ("users_count", PyVal.int users.length),
           ("commits_count", PyVal.int commits.length)],
        commits := commits }

/-- `get_commits_data` (lines 451-522): the entry point.  Totality of
this definition mirrors the source's outermost `try/except`, which
converts any escaping exception into the error-shaped report of lines
516-522. -/
def get_commits_data (env : Env) (url : String) (days : Int) : Report :=
  match runPipeline env url days with
  | Except.ok r => r
  | Except.error e =>
    { metadata :=
        [("date", PyVal.str env.nowAssemblyIso),
         ("error", PyVal.str (unexpectedErrorMsg e))],
      commits := [] }

theorem unexpectedErrorMsg_ne_empty (e : String) : unexpectedErrorMsg e ≠ "" := by
  intro h
  have h2 : (unexpectedErrorMsg e).length = 0 := by rw [h]; rfl
  rw [unexpectedErrorMsg, String.length_append] at h2
  have h3 : ("ERROR: An unexpected error occurred: ").length = 37 := by decide
  omega

/-- Claim C1: for every input, the entry point `get_commits_data` never
raises to its caller (it is a total function of the environment); when
the pipeline body raises — in particular on authentication failure, the
only step whose exception reaches the top-level handler — it returns a
report whose `metadata.error` is a non-empty string and whose commits
list is empty. -/
theorem get_commits_data_total_failure_shape (env : Env) (url : String)
    (days : Int) (e : String) (h : env.authResult = Except.error e) :
    (get_commits_data env url days).commits = [] ∧
    ∃ m, List.lookup "error" (get_commits_data env url days).metadata
        = some (PyVal.str m) ∧ m ≠ "" := by
  unfold get_commits_data runPipeline
  rw [h]
  exact ⟨rfl, unexpectedErrorMsg e, rfl, unexpectedErrorMsg_ne_empty e⟩

/-- A concrete failing environment for the witnesses below. -/
def authFailEnv : Env :=
  { authResult := Except.error "401 Unauthorized",
    projEnv :=
      { listVisAll := Except.ok [], listAll := Except.ok [],
        pageResult := fun _ => Except.ok [] },
    userEnv :=
      { firstPage := Except.ok Option.none,
        pageResult := fun _ => Except.ok [],
        listAllSeq := Except.ok [], seqPage := fun _ => Except.ok [] },
    fetch := fun _ _ _ => Except.ok [],
    nowFetch := { day := 0, usec := 0 },
    nowAssemblyIso := "2026-10-12T00:00:00" }

theorem get_commits_data_total_failure_shape_witness :
    (get_commits_data authFailEnv "https://gitlab.example" 1).commits = [] ∧
    ∃ m, List.lookup "error" (get_commits_data authFailEnv "https://gitlab.example" 1).metadata
        = some (PyVal.str m) ∧ m ≠ "" :=
  get_commits_data_total_failure_shape authFailEnv "https://gitlab.example" 1
    "401 Unauthorized" rfl

/-- Claim C2: in every report of a successful run, the three metadata
counters equal the lengths of the enumerated projects list, the collected
users list, and the commits list of that same report. -/
theorem get_commits_data_counts (env : Env) (url : String) (days : Int)
    (h : env.authResult = Except.ok ()) :
    List.lookup "projects_count" (get_commits_data env url days).metadata
      = some (PyVal.int ((get_all_projects env.projEnv).length : Int)) ∧
    List.lookup "users_count" (get_commits_data env url days).metadata
      = some (PyVal.int ((get_all_users env.userEnv).length : Int)) ∧
    List.lookup "commits_count" (get_commits_data env url days).metadata
      = some (PyVal.int ((get_commits_data env url days).commits.length : Int)) := by
  unfold get_commits_data runPipeline
  rw [h]
  exact ⟨rfl, rfl, rfl⟩

/-- Concrete projects and a concrete commit record for the witnesses. -/
def projA : Project :=
  { id := 1, name := "a", path_with_namespace := "g/a",
    visibility := "public", web_url := "u1" }

def projB : Project :=
  { id := 2, name := "b", path_with_namespace := "g/b",
    visibility := "unknown", web_url := "u2" }

def commitW : CommitRecord :=
  { title := PyVal.str "t", message := PyVal.str "m",
    author_name := PyVal.str "an", author_email := PyVal.str "ae",
    created_at := PyVal.str "2026-10-12T01:00:00+00:00",
    project_path := "g/a", diff := [] }

/-- A concrete successful environment: two projects, one user, one
commit, used by the witnesses below. -/
def okEnv : Env :=
  { authResult := Except.ok (),
    projEnv :=
      { listVisAll := Except.ok
          [{ id := 1, name := "a", path_with_namespace := "g/a",
             visibility := some "public", web_url := "u1" },
           { id := 2, name := "b", path_with_namespace := "g/b",
             visibility := Option.none, web_url := "u2" }],
        listAll := Except.error "unused",
        pageResult := fun _ => Except.ok [] },
    userEnv :=
      { firstPage := Except.ok (some 1),
        pageResult := fun p =>
          if p = 1 then
            Except.ok [{ id := 7, username := "u", name := "U",
                         email := Option.none, state := some "active" }]
          else Except.ok [],
        listAllSeq := Except.error "unused", seqPage := fun _ => Except.ok [] },
    fetch := fun p _ _ =>
      if p.id = 1 then Except.ok [commitW]
      else Except.error "network down",
    nowFetch := { day := 20739, usec := 3600000000 },
    nowAssemblyIso := "2026-10-12T02:00:00" }

theorem get_commits_data_counts_witness :
    List.lookup "projects_count" (get_commits_data okEnv "https://gitlab.example" 1).metadata
      = some (PyVal.int ((get_all_projects okEnv.projEnv).length : Int)) ∧
    List.lookup "users_count" (get_commits_data okEnv "https://gitlab.example" 1).metadata
      = some (PyVal.int ((get_all_users okEnv.userEnv).length : Int)) ∧
    List.lookup "commits_count" (get_commits_data okEnv "https://gitlab.example" 1).metadata
      = some (PyVal.int ((get_commits_data okEnv "https://gitlab.example" 1).commits.length : Int)) :=
  get_commits_data_counts okEnv "https://gitlab.example" 1 rfl

/-- Claim C3: for every `days = N >= 1` the window computed by
`get_today_commits` has `end = now` and `start = midnight(now) - (N-1)
days` (so `start` precedes `end`); for `N = 1`, `start` is today's
midnight. -/
theorem commitWindow_start_end (now : PyDateTime) (days : Int)
    (h : 1 ≤ days) :
    (commitWindow now days).2 = now ∧
    (commitWindow now days).1 = subDays (midnightOf now) (days - 1) ∧
    (commitWindow now days).1.day = now.day - (days - 1) ∧
    (commitWindow now days).1.usec = 0 ∧
    dtLe (commitWindow now days).1 now = true ∧
    (days = 1 → (commitWindow now days).1 = midnightOf now) := by
  refine ⟨rfl, rfl, rfl, rfl, ?_, ?_⟩
  · simp only [commitWindow, subDays, replaceMidnight, dtLe,
      Bool.or_eq_true, Bool.and_eq_true, decide_eq_true_eq, beq_iff_eq]
    omega
  · intro h1
    subst h1
    simp [commitWindow, subDays, replaceMidnight, midnightOf]

theorem commitWindow_start_end_witness :
    (commitWindow { day := 10, usec := 5 } 3).2 = { day := 10, usec := 5 } ∧
    (commitWindow { day := 10, usec := 5 } 3).1
      = subDays (midnightOf { day := 10, usec := 5 }) (3 - 1) ∧
    (commitWindow { day := 10, usec := 5 } 3).1.day = 10 - (3 - 1) ∧
    (commitWindow { day := 10, usec := 5 } 3).1.usec = 0 ∧
    dtLe (commitWindow { day := 10, usec := 5 } 3).1 { day := 10, usec := 5 } = true ∧
    ((3 : Int) = 1 → (commitWindow { day := 10, usec := 5 } 3).1
      = midnightOf { day := 10, usec := 5 }) := by
  have h := commitWindow_start_end { day := 10, usec := 5 } 3 (by norm_num)
  simpa using h

/-- Claim C8: when the first user page reports a total of `T` users, the
required page count is the ceiling of `T / 100` (least number of
100-sized pages covering `T`; 3 for `T = 250`) and exactly that many
page-fetch tasks are dispatched; with no reported total, exactly 20
tasks are dispatched. -/
theorem user_page_estimation :
    (∀ T : Nat,
      userTotalPages (some T) = (T + 99) / 100 ∧
      T ≤ 100 * userTotalPages (some T) ∧
      (∀ k : Nat, T ≤ 100 * k → userTotalPages (some T) ≤ k) ∧
      (userPageTasks (some T)).length = userTotalPages (some T)) ∧
    userTotalPages (some 250) = 3 ∧
    (userPageTasks (some 250)).length = 3 ∧
    (userPageTasks Option.none).length = 20 := by
  refine ⟨fun T => ⟨rfl, ?_, ?_, ?_⟩, by decide, by decide, by decide⟩
  · show T ≤ 100 * ((T + 99) / 100)
    omega
  · intro k hk
    show (T + 99) / 100 ≤ k
    omega
  · unfold userPageTasks
    exact List.length_range' ..

theorem user_page_estimation_witness :
    (250 : Nat) ≤ 100 * userTotalPages (some 250) ∧
    userTotalPages (some 250) ≤ 3 :=
  ⟨(user_page_estimation.1 250).2.1,
   (user_page_estimation.1 250).2.2.1 3 (by norm_num)⟩

/-- Claim C9: the total-failure report's metadata carries only the keys
`date` and `error`; the six keys of a successful report's metadata other
than `date` are absent, not present with default values. -/
theorem error_report_metadata_keys (env : Env) (url : String) (days : Int)
    (e : String) (h : env.authResult = Except.error e) :
    (get_commits_data env url days).metadata.map Prod.fst = ["date", "error"] ∧
    List.lookup "gitlab_url" (get_commits_data env url days).metadata = Option.none ∧
    List.lookup "days_included" (get_commits_data env url days).metadata = Option.none ∧
    List.lookup "projects_count" (get_commits_data env url days).metadata = Option.none ∧
    List.lookup "users_count" (get_commits_data env url days).metadata = Option.none ∧
    List.lookup "commits_count" (get_commits_data env url days).metadata = Option.none := by
  unfold get_commits_data runPipeline
  rw [h]
  exact ⟨rfl, rfl, rfl, rfl, rfl, rfl⟩

theorem error_report_metadata_keys_witness :
    (get_commits_data authFailEnv "https://gitlab.example" 1).metadata.map Prod.fst
      = ["date", "error"] ∧
    List.lookup "gitlab_url" (get_commits_data authFailEnv "https://gitlab.example" 1).metadata = Option.none ∧
    List.lookup "days_included" (get_commits_data authFailEnv "https://gitlab.example" 1).metadata = Option.none ∧
    List.lookup "projects_count" (get_commits_data authFailEnv "https://gitlab.example" 1).metadata = Option.none ∧
    List.lookup "users_count" (get_commits_data authFailEnv "https://gitlab.example" 1).metadata = Option.none ∧
    List.lookup "commits_count" (get_commits_data authFailEnv "https://gitlab.example" 1).metadata = Option.none :=
  error_report_metadata_keys authFailEnv "https://gitlab.example" 1
    "401 Unauthorized" rfl

theorem zip_map_eq {α β : Type} (f : α → β) (l : List α) :
    ∀ a b, (a, b) ∈ l.zip (l.map f) → b = f a := by
  induction l with
  | nil =>
    intro a b h
    cases h
  | cons x xs ih =>
    intro a b h
    rcases List.mem_cons.mp h with h1 | h1
    · injection h1 with h2 h3
      subst h2
      subst h3
      rfl
    · exact ih a b h1

theorem filterDiffItem_keys (d : PyDict) :
    (∀ kv : String × PyVal, kv ∈ filterDiffItem d → kv.1 ∈ allowedDiffKeys) ∧
    (List.lookup "new_path" (filterDiffItem d)).isSome = true ∧
    (List.lookup "old_path" (filterDiffItem d)).isSome = true ∧
    ((List.lookup "new_file" (filterDiffItem d)).isSome
      = (List.lookup "new_file" d).isSome) := by
  cases h : List.lookup "new_file" d with
  | none =>
    refine ⟨?_, ?_, ?_, ?_⟩
    · intro kv hkv
      simp only [filterDiffItem, h, List.mem_cons, List.not_mem_nil,
        or_false] at hkv
      rcases hkv with rfl | rfl
      · simp [allowedDiffKeys]
      · simp [allowedDiffKeys]
    · simp only [filterDiffItem, h]
      rfl
    · simp only [filterDiffItem, h]
      rfl
    · simp only [filterDiffItem, h]
      rfl
  | some v =>
    refine ⟨?_, ?_, ?_, ?_⟩
    · intro kv hkv
      simp only [filterDiffItem, h, List.mem_cons, List.not_mem_nil,
        or_false] at hkv
      rcases hkv with rfl | rfl | rfl
      · simp [allowedDiffKeys]
      · simp [allowedDiffKeys]
      · simp [allowedDiffKeys]
    · simp only [filterDiffItem, h]
      rfl
    · simp only [filterDiffItem, h]
      rfl
    · simp only [filterDiffItem, h]
      rfl

/-- Claim C5: every entry of the filtered diff carries no keys beyond
`new_path`, `old_path`, `new_file`; the two path keys are always present;
`new_file` is present exactly when the corresponding source entry
contained it, never defaulted. -/
theorem filter_diff_key_shape (diff : List PyDict) (src entry : PyDict)
    (h : (src, entry) ∈ diff.zip (filter_diff_data diff)) :
    (∀ kv : String × PyVal, kv ∈ entry → kv.1 ∈ allowedDiffKeys) ∧
    (List.lookup "new_path" entry).isSome = true ∧
    (List.lookup "old_path" entry).isSome = true ∧
    ((List.lookup "new_file" entry).isSome
      = (List.lookup "new_file" src).isSome) := by
  have hb : entry = filterDiffItem src := zip_map_eq filterDiffItem diff src entry h
  subst hb
  exact filterDiffItem_keys src

theorem filter_diff_key_shape_witness :
    (∀ kv : String × PyVal,
      kv ∈ filterDiffItem [("new_path", PyVal.str "a.txt"), ("junk", PyVal.int 1)] →
      kv.1 ∈ allowedDiffKeys) ∧
    (List.lookup "new_path"
      (filterDiffItem [("new_path", PyVal.str "a.txt"), ("junk", PyVal.int 1)])).isSome = true ∧
    (List.lookup "old_path"
      (filterDiffItem [("new_path", PyVal.str "a.txt"), ("junk", PyVal.int 1)])).isSome = true ∧
    ((List.lookup "new_file"
      (filterDiffItem [("new_path", PyVal.str "a.txt"), ("junk", PyVal.int 1)])).isSome
      = (List.lookup "new_file"
          ([("new_path", PyVal.str "a.txt"), ("junk", PyVal.int 1)] : PyDict)).isSome) :=
  filter_diff_key_shape
    [[("new_path", PyVal.str "a.txt"), ("junk", PyVal.int 1)]]
    [("new_path", PyVal.str "a.txt"), ("junk", PyVal.int 1)]
    (filterDiffItem [("new_path", PyVal.str "a.txt"), ("junk", PyVal.int 1)])
    (by decide)

theorem lookup_filterDiffItem_new_path (d : PyDict) :
    List.lookup "new_path" (filterDiffItem d)
      = some (dictGetD d "new_path" (PyVal.str "")) := by
  cases h : List.lookup "new_file" d with
  | none =>
    simp only [filterDiffItem, h]
    rfl
  | some v =>
    simp only [filterDiffItem, h]
    rfl

theorem lookup_filterDiffItem_old_path (d : PyDict) :
    List.lookup "old_path" (filterDiffItem d)
      = some (dictGetD d "old_path" (PyVal.str "")) := by
  cases h : List.lookup "new_file" d with
  | none =>
    simp only [filterDiffItem, h]
    rfl
  | some v =>
    simp only [filterDiffItem, h]
    rfl

/-- Claim C10: `filter_diff_data` never drops an entry (the output has
the input's length), and a source entry lacking `new_path` or `old_path`
yields that key present with the empty string, not omitted. -/
theorem filter_diff_length_defaults (diff : List PyDict) :
    (filter_diff_data diff).length = diff.length ∧
    (∀ src entry : PyDict, (src, entry) ∈ diff.zip (filter_diff_data diff) →
      (List.lookup "new_path" src = Option.none →
        List.lookup "new_path" entry = some (PyVal.str "")) ∧
      (List.lookup "old_path" src = Option.none →
        List.lookup "old_path" entry = some (PyVal.str ""))) := by
  refine ⟨List.length_map .., ?_⟩
  intro src entry h
  have hb : entry = filterDiffItem src := zip_map_eq filterDiffItem diff src entry h
  subst hb
  constructor
  · intro hnp
    rw [lookup_filterDiffItem_new_path]
    unfold dictGetD
    rw [hnp]
  · intro hop
    rw [lookup_filterDiffItem_old_path]
    unfold dictGetD
    rw [hop]

theorem filter_diff_length_defaults_witness :
    (filter_diff_data [[("junk", PyVal.int 1)]]).length
      = ([[("junk", PyVal.int 1)]] : List PyDict).length ∧
    List.lookup "new_path" (filterDiffItem [("junk", PyVal.int 1)])
      = some (PyVal.str "") ∧
    List.lookup "old_path" (filterDiffItem [("junk", PyVal.int 1)])
      = some (PyVal.str "") := by
  have h := filter_diff_length_defaults [[("junk", PyVal.int 1)]]
  have h2 := h.2 [("junk", PyVal.int 1)]
    (filterDiffItem [("junk", PyVal.int 1)]) (by decide)
  exact ⟨h.1, h2.1 (by decide), h2.2 (by decide)⟩

theorem mem_foldl_extendAggregate_of_mem_acc
    (rs : List (Except String (List CommitRecord))) :
    ∀ acc c, c ∈ acc → c ∈ rs.foldl extendAggregate acc := by
  induction rs with
  | nil =>
    intro acc c hc
    simpa using hc
  | cons r rs ih =>
    intro acc c hc
    simp only [List.foldl_cons]
    apply ih
    cases r with
    | ok l => exact List.mem_append_left _ hc
    | error e => exact hc

theorem mem_foldl_extendAggregate
    (rs : List (Except String (List CommitRecord)))
    (l : List CommitRecord) (c : CommitRecord)
    (hr : Except.ok l ∈ rs) (hc : c ∈ l) :
    ∀ acc, c ∈ rs.foldl extendAggregate acc := by
  induction rs with
  | nil => cases hr
  | cons r rs ih =>
    intro acc
    rcases List.mem_cons.mp hr with h1 | h1
    · subst h1
      simp only [List.foldl_cons]
      apply mem_foldl_extendAggregate_of_mem_acc
      exact List.mem_append_right _ hc
    · simp only [List.foldl_cons]
      exact ih h1 _

/-- Claim C7: a commit fetched successfully for one project reaches the
aggregate no matter how the other projects' fetches end, and
`projects_count` does not depend on the per-project fetch outcomes at
all (it counts enumerated projects). -/
theorem project_failure_containment (env : Env) (url : String)
    (projects : List Project) (days : Int) (p : Project)
    (l : List CommitRecord) (c : CommitRecord)
    (hp : p ∈ projects)
    (hf : env.fetch p (commitWindow env.nowFetch days).1
            (commitWindow env.nowFetch days).2 = Except.ok l)
    (hc : c ∈ l) :
    c ∈ get_today_commits env.fetch env.nowFetch projects days ∧
    ∀ f g : Project → PyDateTime → PyDateTime → Except String (List CommitRecord),
      List.lookup "projects_count"
          (get_commits_data { env with fetch := f } url days).metadata
        = List.lookup "projects_count"
          (get_commits_data { env with fetch := g } url days).metadata := by
  constructor
  · show c ∈ (projects.map (fun q => env.fetch q (commitWindow env.nowFetch days).1
        (commitWindow env.nowFetch days).2)).foldl extendAggregate []
    apply mem_foldl_extendAggregate _ l c _ hc
    rw [← hf]
    exact List.mem_map_of_mem _ hp
  · intro f g
    obtain ⟨a, pe, ue, ft, nf, na⟩ := env
    cases a with
    | ok u => rfl
    | error e => rfl

theorem project_failure_containment_witness :
    commitW ∈ get_today_commits okEnv.fetch okEnv.nowFetch [projA, projB] 1 ∧
    ∀ f g : Project → PyDateTime → PyDateTime → Except String (List CommitRecord),
      List.lookup "projects_count"
          (get_commits_data { okEnv with fetch := f } "https://gitlab.example" 1).metadata
        = List.lookup "projects_count"
          (get_commits_data { okEnv with fetch := g } "https://gitlab.example" 1).metadata :=
  project_failure_containment okEnv "https://gitlab.example" [projA, projB] 1
    projA [commitW] commitW (by decide) rfl (by decide)

theorem keepInWindow_sound (parse : String → Option PyDateTime)
    (start_date end_date : PyDateTime) :
    ∀ batch c, c ∈ (keepInWindow parse start_date end_date batch).1 →
      ∃ s t, c.created_at = some s ∧ parse s = some t ∧
        dtLe start_date t = true ∧ dtLe t end_date = true := by
  intro batch
  induction batch with
  | nil =>
    intro c hc
    simp [keepInWindow] at hc
  | cons x xs ih =>
    intro c hc
    cases hca : x.created_at with
    | none =>
      simp only [keepInWindow, hca] at hc
      exact ih c hc
    | some s =>
      cases hp : parse s with
      | none =>
        simp only [keepInWindow, hca, hp] at hc
        cases hc
      | some t =>
        simp only [keepInWindow, hca, hp] at hc
        by_cases hw : (dtLe start_date t && dtLe t end_date) = true
        · rw [if_pos hw] at hc
          rcases List.mem_cons.mp hc with rfl | h1
          · have hw2 := Bool.and_eq_true_iff.mp hw
            exact ⟨s, t, hca, hp, hw2.1, hw2.2⟩
          · exact ih c h1
        · rw [if_neg hw] at hc
          exact ih c hc

theorem fallbackLoop_sound (parse : String → Option PyDateTime)
    (pages : Nat → List RawCommit) (start_date end_date : PyDateTime) :
    ∀ fuel page acc,
      (∀ c ∈ acc, ∃ s t, c.created_at = some s ∧ parse s = some t ∧
        dtLe start_date t = true ∧ dtLe t end_date = true) →
      ∀ c ∈ fallbackLoop parse pages start_date end_date fuel page acc,
        ∃ s t, c.created_at = some s ∧ parse s = some t ∧
          dtLe start_date t = true ∧ dtLe t end_date = true := by
  intro fuel
  induction fuel with
  | zero =>
    intro page acc hacc c hc
    exact hacc c hc
  | succ n ih =>
    intro page acc hacc c hc
    simp only [fallbackLoop] at hc
    by_cases hb : (pages page).isEmpty = true
    · rw [if_pos hb] at hc
      exact hacc c hc
    · rw [if_neg hb] at hc
      by_cases hk : (keepInWindow parse start_date end_date (pages page)).2 = true
      · rw [if_pos hk] at hc
        refine ih _ _ ?_ c hc
        intro d hd
        rcases List.mem_append.mp hd with h2 | h2
        · exact hacc d h2
        · exact keepInWindow_sound parse start_date end_date (pages page) d h2
      · rw [if_neg hk] at hc
        rcases List.mem_append.mp hc with h2 | h2
        · exact hacc c h2
        · exact keepInWindow_sound parse start_date end_date (pages page) c h2

/-- Claim C6: every commit kept by the manual-pagination fallback path
(pages 1..10, client-side filter) has a parseable `created_at` whose
timestamp lies in `[start_date, end_date]` inclusive. -/
theorem fallback_commits_in_window (parse : String → Option PyDateTime)
    (pages : Nat → List RawCommit) (start_date end_date : PyDateTime)
    (c : RawCommit)
    (h : c ∈ get_project_commits_fallback parse pages start_date end_date) :
    ∃ s t, c.created_at = some s ∧ parse s = some t ∧
      dtLe start_date t = true ∧ dtLe t end_date = true := by
  refine fallbackLoop_sound parse pages start_date end_date 10 1 [] ?_ c h
  intro d hd
  cases hd

/-- A concrete parse table and page table for the fallback witness. -/
def parseTableW : String → Option PyDateTime := fun s =>
  if s = "2026-10-12T01:00:00" then some { day := 20739, usec := 3600000000 }
  else Option.none

def pageTableW : Nat → List RawCommit := fun p =>
  if p = 1 then
    [{ id := "c1", created_at := some "2026-10-12T01:00:00" },
     { id := "c2", created_at := Option.none }]
  else []

theorem fallback_commits_in_window_witness :
    ∃ s t, ({ id := "c1", created_at := some "2026-10-12T01:00:00" } : RawCommit).created_at
        = some s ∧ parseTableW s = some t ∧
      dtLe { day := 20739, usec := 0 } t = true ∧
      dtLe t { day := 20739, usec := 7200000000 } = true :=
  fallback_commits_in_window parseTableW pageTableW
    { day := 20739, usec := 0 } { day := 20739, usec := 7200000000 }
    { id := "c1", created_at := some "2026-10-12T01:00:00" } (by decide)

theorem digitChar_mod_isDigit (n : Nat) :
    (Nat.digitChar (n % 10)).isDigit = true := by
  have h : n % 10 < 10 := Nat.mod_lt _ (by norm_num)
  revert h
  generalize n % 10 = r
  intro h
  interval_cases r <;> decide

theorem endsWithOffset_append_six (l suf : List Char) (h : suf.length = 6) :
    endsWithOffset (String.mk (l ++ suf)) = offsetTail suf := by
  show offsetTail ((l ++ suf).drop ((l ++ suf).length - 6)) = offsetTail suf
  rw [List.length_append, h, Nat.add_sub_cancel, List.drop_left]

theorem isoFormat_none_split (y mo d h mi s : Nat) :
    isoFormatChars
      { year := y, month := mo, day := d, hour := h,
        minute := mi, second := s, offset := Option.none }
      = (pad4 y ++ '-' :: pad2 mo ++ '-' :: pad2 d ++ 'T' :: pad2 h)
        ++ (':' :: pad2 mi ++ ':' :: pad2 s) := rfl

theorem isoFormat_some_split (y mo d h mi s : Nat) (m : Int) :
    isoFormatChars
      { year := y, month := mo, day := d, hour := h,
        minute := mi, second := s, offset := some m }
      = (pad4 y ++ '-' :: pad2 mo ++ '-' :: pad2 d ++ 'T' :: pad2 h
          ++ ':' :: pad2 mi ++ ':' :: pad2 s) ++ offsetSuffixChars m := rfl

theorem offsetTail_offsetSuffix (m : Int) :
    offsetTail (offsetSuffixChars m) = true := by
  have hsign : (if m < 0 then '-' else '+') = '+'
      ∨ (if m < 0 then '-' else '+') = '-' := by
    by_cases hm : m < 0
    · right
      rw [if_pos hm]
    · left
      rw [if_neg hm]
  simp only [offsetSuffixChars, pad2, List.cons_append, List.nil_append,
    offsetTail, Bool.and_eq_true, Bool.or_eq_true, beq_iff_eq]
  exact ⟨⟨⟨⟨⟨hsign, digitChar_mod_isDigit _⟩, digitChar_mod_isDigit _⟩, trivial⟩,
    digitChar_mod_isDigit _⟩, digitChar_mod_isDigit _⟩

theorem endsWithOffset_isoFormat (dt : IsoDateTime) :
    endsWithOffset (String.mk (isoFormatChars dt)) = dt.offset.isSome := by
  rcases dt with ⟨y, mo, d, h, mi, s, off⟩
  cases off with
  | none =>
    rw [isoFormat_none_split,
      endsWithOffset_append_six _ (':' :: pad2 mi ++ ':' :: pad2 s) (by rfl)]
    rfl
  | some m =>
    rw [isoFormat_some_split,
      endsWithOffset_append_six _ (offsetSuffixChars m) (by rfl)]
    exact offsetTail_offsetSuffix m

theorem replaceZChars_of_not_mem : ∀ l : List Char, 'Z' ∉ l → replaceZChars l = l := by
  intro l
  induction l with
  | nil =>
    intro h
    rfl
  | cons c cs ih =>
    intro h
    have hc : ¬(c = 'Z') := by
      intro hEq
      rw [hEq] at h
      exact h (List.mem_cons_self _ _)
    rw [replaceZChars, if_neg hc, ih (fun h2 => h (List.mem_cons_of_mem c h2))]

/-- Claim C4, refuted at concrete inputs.  First input: normalization of
the naive timestamp `2024-01-02T03:04:05` succeeds, yet the stored value
is unchanged and carries no explicit UTC offset.  Second input: parsing
of `Zero` fails, yet the record does not keep the original value — the
`Z` replacement already rewrote it to `+00:00ero` before the parse was
attempted. -/
theorem normalizeCreatedAt_claim_refuted :
    (isoParseChars (replaceZChars ("2024-01-02T03:04:05").data)
        = some { year := 2024, month := 1, day := 2, hour := 3, minute := 4,
                 second := 5, offset := Option.none } ∧
     normalizeCreatedAt "2024-01-02T03:04:05" = "2024-01-02T03:04:05" ∧
     endsWithOffset (normalizeCreatedAt "2024-01-02T03:04:05") = false) ∧
    (isoParseChars (replaceZChars ("Zero").data) = Option.none ∧
     normalizeCreatedAt "Zero" = "+00:00ero" ∧
     normalizeCreatedAt "Zero" ≠ "Zero") := by
  exact ⟨⟨by decide, by decide, by decide⟩, by decide, by decide, by decide⟩

/-- Claim C4 as amended: for a string-valued `created_at`, the value is
first rewritten with every `Z` replaced by `+00:00`; when ISO-8601
parsing of that rewritten string succeeds, the stored value is its
canonical ISO-8601 serialization, which carries an explicit UTC offset
exactly when the parsed timestamp is timezone-aware; when parsing fails,
the record keeps the `Z`-replaced string, which equals the original
exactly when the original contained no `Z`. -/
theorem normalizeCreatedAt_amended (s : String) :
    (∀ dt, isoParseChars (replaceZChars s.data) = some dt →
      normalizeCreatedAt s = String.mk (isoFormatChars dt) ∧
      endsWithOffset (normalizeCreatedAt s) = dt.offset.isSome) ∧
    (isoParseChars (replaceZChars s.data) = Option.none →
      normalizeCreatedAt s = String.mk (replaceZChars s.data) ∧
      ('Z' ∉ s.data → normalizeCreatedAt s = s)) := by
  constructor
  · intro dt hdt
    constructor
    · unfold normalizeCreatedAt
      rw [hdt]
    · unfold normalizeCreatedAt
      rw [hdt]
      exact endsWithOffset_isoFormat dt
  · intro hn
    constructor
    · unfold normalizeCreatedAt
      rw [hn]
    · intro hz
      unfold normalizeCreatedAt
      rw [hn, replaceZChars_of_not_mem s.data hz]

theorem normalizeCreatedAt_amended_witness :
    normalizeCreatedAt "2024-01-02T03:04:05+05:30"
      = String.mk (isoFormatChars
          { year := 2024, month := 1, day := 2,
            hour := 3, minute := 4, second := 5, offset := some 330 }) ∧
    endsWithOffset (normalizeCreatedAt "2024-01-02T03:04:05+05:30")
      = (some (330 : Int)).isSome :=
  (normalizeCreatedAt_amended "2024-01-02T03:04:05+05:30").1
    { year := 2024, month := 1, day := 2, hour := 3, minute := 4,
      second := 5, offset := some 330 } (by decide)
